import Mathlib

/-!
Verification of the aggregation and customer-segmentation pipeline of the
Pioneer Market Analytics dashboard (`src/Dashboard/app.py`).

The pandas dataframes are shallowly embedded as Lean lists of records:
a dataframe is a `List` of rows, `merge(..., how='left')` is `leftJoin`,
`groupby` over a key becomes "distinct keys, then per-key filtered
aggregation", and nullable columns are `Option` values.  Timestamps are
modelled as a day number (days since an epoch Monday, so pandas
`dt.dayofweek` is `day % 7` with Monday = 0) plus a minute-of-day, which
is what the script consumes (`dt.date`, `dt.day_name`, `dt.hour`,
ordering, and day differences).  Prices are rationals.
-/

/-- `order_purchase_timestamp`: day number since an epoch Monday plus
minute-of-day.  `dt.date` is the `day` field; time-of-day lives in
`minute`. -/
structure Timestamp where
  day : Nat
  minute : Nat
deriving DecidableEq

/-- A record of `customers_dataset.csv`. -/
structure Customer where
  customer_id : String
  customer_unique_id : String
  customer_state : String
deriving DecidableEq

/-- A record of `orders_dataset.csv` (the columns the script uses). -/
structure Order where
  order_id : String
  customer_id : String
  ts : Timestamp
deriving DecidableEq

/-- A record of `order_items_dataset.csv` (the columns the script uses). -/
structure OrderItem where
  order_id : String
  product_id : String
  price : Rat
deriving DecidableEq

/-- A record of `products_dataset.csv` (the columns the script uses). -/
structure Product where
  product_id : String
  product_category_name : Option String
deriving DecidableEq

/-- The four loaded tables (`load_data`). -/
structure Dataset where
  customers : List Customer
  orders : List Order
  order_items : List OrderItem
  products : List Product
deriving DecidableEq

/-- `left.merge(right, on=key, how='left')`: every left row survives; it
is repeated once per matching right row, or kept once with nulls when no
right row matches.  Left order (and right order within a match group) is
preserved, as pandas does. -/
def leftJoin {α β : Type} (ls : List α) (rs : List β) (matches_ : α → β → Bool) :
    List (α × Option β) :=
  ls.flatMap (fun a =>
    match rs.filter (matches_ a) with
    | [] => [(a, none)]
    | bs => bs.map (fun b => (a, some b)))

/-- One enriched transaction row of `orders_full`: an order joined (left)
with its customer, one of its line items, and that item's product. -/
structure Row where
  order : Order
  cust : Option Customer
  item : Option OrderItem
  product : Option Product
deriving DecidableEq

/-- `orders_customers = orders.merge(customers, on='customer_id', how='left')`. -/
def ordersCustomers (d : Dataset) : List (Order × Option Customer) :=
  leftJoin d.orders d.customers (fun o c => o.customer_id == c.customer_id)

/-- `orders_customers.merge(order_items, on='order_id', how='left')`. -/
def withItems (d : Dataset) : List ((Order × Option Customer) × Option OrderItem) :=
  leftJoin (ordersCustomers d) d.order_items (fun oc it => oc.1.order_id == it.order_id)

/-- `orders_full = (...).merge(products, on='product_id', how='left')`
(a null `product_id` matches no product). -/
def ordersFull (d : Dataset) : List Row :=
  (leftJoin (withItems d) d.products
      (fun oi p => oi.2.map OrderItem.product_id == some p.product_id)).map
    (fun x => { order := x.1.1.1, cust := x.1.1.2, item := x.1.2, product := x.2 })

/-- `orders_full['revenue'] = orders_full['price']` (null when the order
has no line item). -/
def Row.revenue (r : Row) : Option Rat :=
  r.item.map OrderItem.price

/-- The `product_category_name` column of an enriched row (null when the
product is missing or carries no category). -/
def Row.category (r : Row) : Option String :=
  r.product.bind Product.product_category_name

/-- The `customer_unique_id` column of an enriched row. -/
def Row.uid (r : Row) : Option String :=
  r.cust.map Customer.customer_unique_id

/-- The date-range predicate of the filter:
`start_date <= ts.dt.date <= end_date`, day granularity. -/
def inWindow (s e : Nat) (t : Timestamp) : Bool :=
  decide (s ≤ t.day) && decide (t.day ≤ e)

/-- `filtered_orders = orders_full[(dt.date >= start) & (dt.date <= end)]`. -/
def filteredOrders (d : Dataset) (s e : Nat) : List Row :=
  (ordersFull d).filter (fun r => inWindow s e r.order.ts)

/-- `rfm_segment` (app.py lines 161-171): the per-row segment decision,
an if/elif chain evaluated top to bottom. -/
def rfm_segment (R F M : Nat) : String :=
  if 3 ≤ R ∧ 3 ≤ F ∧ 3 ≤ M then "Champions"
  else if 3 ≤ R ∧ 2 ≤ F then "Loyal Customers"
  else if 3 ≤ R then "Potential Loyalists"
  else if R = 2 then "Need Attention"
  else "Lost Customers"

/-- Modelled from the spec: the §4.4 priority table, rows evaluated in
the stated order with first match winning. -/
def specSegmentOf (R F M : Nat) : String :=
  if 3 ≤ R ∧ 3 ≤ F ∧ 3 ≤ M then "Champions"
  else if 3 ≤ R ∧ 2 ≤ F then "Loyal Customers"
  else if 3 ≤ R then "Potential Loyalists"
  else if R = 2 then "Need Attention"
  else "Lost Customers"

/-- Minutes since the epoch (`Timestamp` as a single orderable instant). -/
def totalMin (t : Timestamp) : Nat := 1440 * t.day + t.minute

/-- `snapshot_date = filtered_orders['order_purchase_timestamp'].max() + Timedelta(days=1)`,
in minutes (meaningful only for a non-empty window, as in the script). -/
def snapshotMin (rows : List Row) : Nat :=
  (rows.map (fun r => totalMin r.order.ts)).foldl Nat.max 0 + 1440

/-- One row of the re-merged table built at app.py line 100:
`order_items = filtered_orders.merge(order_items, on='order_id', how='left')`.
The left component carries the `_x` columns (the already item-joined
filtered row), the right component the `_y` columns. -/
def orderItemsMerged (d : Dataset) (s e : Nat) : List (Row × Option OrderItem) :=
  leftJoin (filteredOrders d s e) d.order_items
    (fun r it => r.order.order_id == it.order_id)

/-- `order_items['revenue'] = order_items['price_x'].fillna(0)`: the price
column of the left (filtered) side, nulls coerced to 0. -/
def mergedRevenue (m : Row × Option OrderItem) : Rat :=
  (Row.revenue m.1).getD 0

/-- One row of the `rfm` table before scoring. -/
structure RfmRec where
  uid : String
  recency : Nat
  frequency : Nat
  monetary : Rat
deriving DecidableEq

/-- `rfm = order_items.groupby('customer_unique_id').agg(...)` (lines
146-155): one row per distinct non-null `customer_unique_id` of the
re-merged table; `recency` is whole days from the customer's latest
purchase to the snapshot, `frequency` counts distinct `order_id`,
`monetary` sums `revenue`.  (pandas sorts the group keys; no claim below
depends on row order, so first-occurrence order stands in.) -/
def rfmTable (d : Dataset) (s e : Nat) : List RfmRec :=
  let ms := orderItemsMerged d s e
  let snap := snapshotMin (filteredOrders d s e)
  ((ms.filterMap (fun m => Row.uid m.1)).dedup).map (fun u =>
    let grp := ms.filter (fun m => Row.uid m.1 == some u)
    { uid := u
      recency := (snap - (grp.map (fun m => totalMin m.1.order.ts)).foldl Nat.max 0) / 1440
      frequency := ((grp.map (fun m => m.1.order.order_id)).dedup).length
      monetary := (grp.map mergedRevenue).sum })

/-- The value ranked at index `i` (reads are always in range on the index
sets used below). -/
def kval {α : Type} [Inhabited α] (xs : List α) (i : Nat) : α := xs.getD i default

/-- The strict order realised by `rank(method='first')`: smaller value
first, ties broken by earlier position. -/
def keyLt {α : Type} [LinearOrder α] [Inhabited α] (xs : List α) (j i : Nat) : Prop :=
  kval xs j < kval xs i ∨ (kval xs j = kval xs i ∧ j < i)

instance {α : Type} [LinearOrder α] [Inhabited α] (xs : List α) (j i : Nat) :
    Decidable (keyLt xs j i) := by
  unfold keyLt
  exact inferInstance

/-- `xs.rank(method='first')` at position `i`: one more than the number of
positions strictly before it in the stable ordering. -/
def rankAt {α : Type} [LinearOrder α] [Inhabited α] (xs : List α) (i : Nat) : Nat :=
  1 + ((Finset.range xs.length).filter (fun j => keyLt xs j i)).card

/-- The bin (1-4) that `pd.qcut(·, 4, labels=False) + 1` assigns to rank
`r` of `1..N`: the quantile edges of the ranks are `1 + (N-1)*k/4`
(linear interpolation, `k = 0..4`); rank `r` lands in the first bin whose
upper edge is at least `r`, the lowest edge being inclusive.  The
comparisons below are the edge comparisons scaled by 4. -/
def binOf (N r : Nat) : Nat :=
  if 4 * (r - 1) ≤ (N - 1) * 1 then 1
  else if 4 * (r - 1) ≤ (N - 1) * 2 then 2
  else if 4 * (r - 1) ≤ (N - 1) * 3 then 3
  else 4

/-- The quantile edges of `pd.qcut(ranks, 4)` for ranks `1..N`, scaled
by 4. -/
def qcutEdges (N : Nat) : List Nat :=
  [4, 4 + (N - 1), 4 + 2 * (N - 1), 4 + 3 * (N - 1), 4 + 4 * (N - 1)]

/-- pandas' "Bin edges must be unique" check: the monotone edge list is
unique iff strictly increasing. -/
def strictlyInc : List Nat → Bool
  | [] => true
  | [_] => true
  | a :: b :: t => decide (a < b) && strictlyInc (b :: t)

/-- The score column `pd.qcut(xs.rank(method='first'), 4, labels=False) + 1`
produces when the edge check passes. -/
def scoresOf {α : Type} [LinearOrder α] [Inhabited α] (xs : List α) : List Nat :=
  (List.range xs.length).map (fun i => binOf xs.length (rankAt xs i))

/-- `pd.qcut(xs.rank(method='first'), 4, labels=False) + 1` (lines
157-159): raises when the quantile edges collide, otherwise yields the
quartile scores. -/
def scoreList {α : Type} [LinearOrder α] [Inhabited α] (xs : List α) :
    Except String (List Nat) :=
  if strictlyInc (qcutEdges xs.length) then .ok (scoresOf xs)
  else .error "Bin edges must be unique"

/-- Lines 157-159 and 173: the three score columns and the segment column;
a failing `qcut` aborts the script. -/
def rfmScored (d : Dataset) (s e : Nat) :
    Except String (List (String × Nat × Nat × Nat × String)) := do
  let t := rfmTable d s e
  let rs ← scoreList (t.map RfmRec.recency)
  let fs ← scoreList (t.map RfmRec.frequency)
  let ms ← scoreList (t.map RfmRec.monetary)
  return (t.zip (rs.zip (fs.zip ms))).map
    (fun p => (p.1.uid, p.2.1, p.2.2.1, p.2.2.2, rfm_segment p.2.1 p.2.2.1 p.2.2.2))

/-- Modelled from the spec: the bin sizes the claim asserts ("the extra
customers go to the earliest bins"): `floor(N/4)` plus one extra for each
of the first `N mod 4` bins. -/
def claimedBinSize (N k : Nat) : Nat :=
  N / 4 + if k ≤ N % 4 then 1 else 0

/-- The seven weekday names in calendar order (pandas day names). -/
def weekdayNames : List String :=
  ["Monday", "Tuesday", "Wednesday", "Thursday", "Friday", "Saturday", "Sunday"]

/-- `dt.day_name()` for a timestamp (day 0 is an epoch Monday). -/
def dayNameOf (t : Timestamp) : String := weekdayNames.getD (t.day % 7) ""

/-- The number of filtered rows on a given weekday
(`groupby(dt.day_name()).size()` for one key). -/
def dayCount (rows : List Row) (w : String) : Nat :=
  (rows.filter (fun r => dayNameOf r.order.ts == w)).length

/-- `daily = filtered.groupby(dt.day_name()).size().reindex([Monday..Sunday])`
(lines 306-313 and 371-377): the reindex lists all seven names in
calendar order; a name absent from the groupby keys (count 0) gets a
null, not 0. -/
def daily (rows : List Row) : List (String × Option Nat) :=
  weekdayNames.map (fun w =>
    (w, if dayCount rows w = 0 then none else some (dayCount rows w)))

/-- The script assigns `rfm` only inside the `if not filtered_orders.empty`
branch of tab 1 (line 141); afterwards the name either holds the table or
was never defined. -/
def rfmDefined (d : Dataset) (s e : Nat) : Option (List RfmRec) :=
  if (filteredOrders d s e).isEmpty then none else some (rfmTable d s e)

/-- `total_customers = rfm.shape[0]` (line 246), executed unconditionally:
reading the name when it was never assigned is a NameError. -/
def tab1TotalCustomers (r : Option (List RfmRec)) : Except String Nat :=
  match r with
  | none => .error "NameError: name rfm is not defined"
  | some t => .ok t.length

/-- First occurrence of the maximal count (`idxmax` keeps the first label
on ties). -/
def argmaxFirst : List (String × Nat) → Option (String × Nat)
  | [] => none
  | x :: t =>
    match argmaxFirst t with
    | none => some x
    | some y => if x.2 < y.2 then some y else some x

/-- `Series.idxmax`: the label of the first maximal non-null value; raises
on an all-null or empty series. -/
def idxmax (l : List (String × Option Nat)) : Except String String :=
  match argmaxFirst (l.filterMap (fun p => p.2.map (fun v => (p.1, v)))) with
  | none => .error "ValueError: attempt to get argmax of an empty sequence"
  | some y => .ok y.1

/-- `peak_day = daily_summary.loc[daily_summary['Total Transactions'].idxmax()]`
(line 379), reduced to the day label it selects. -/
def peakDay (rows : List Row) : Except String String := idxmax (daily rows)

/-- `day_type` (line 406): Weekend when `dt.dayofweek >= 5`, else Weekday. -/
def dayTypeOf (r : Row) : String :=
  if 5 ≤ r.order.ts.day % 7 then "Weekend" else "Weekday"

/-- Count of filtered rows with the given `day_type`. -/
def dayTypeCount (rows : List Row) (t : String) : Nat :=
  (rows.filter (fun r => dayTypeOf r == t)).length

/-- `day_type_summary = filtered.groupby('day_type').size()` (lines
410-415): one row per occurring day type, keys sorted
("Weekday" < "Weekend"). -/
def dayTypeSummary (rows : List Row) : List (String × Nat) :=
  (["Weekday", "Weekend"].filter (fun t => decide (dayTypeCount rows t ≠ 0))).map
    (fun t => (t, dayTypeCount rows t))

/-- `series.values[0]`: numpy indexing into the underlying array; an empty
selection is an out-of-bounds access. -/
def valuesAt0 (l : List Nat) : Except String Nat :=
  match l with
  | [] => .error "IndexError: index 0 is out of bounds for axis 0 with size 0"
  | x :: _ => .ok x

/-- Line 417: `day_type_summary[day_type_summary['day_type'] == 'Weekend']['Total Transactions'].values[0]`. -/
def weekendCount (rows : List Row) : Except String Nat :=
  valuesAt0 (((dayTypeSummary rows).filter (fun p => p.1 == "Weekend")).map Prod.snd)

/-- The distinct non-null categories of a row set: pandas `groupby` drops
null keys.  (Key order is immaterial to every claim below, so
first-occurrence order stands in for pandas' sorted keys.) -/
def categoryKeysOf (rows : List Row) : List String :=
  (rows.filterMap Row.category).dedup

/-- The revenue a category group sums to (`agg(revenue=('revenue','sum'))`;
pandas sums skip null entries). -/
def groupRevenue (rows : List Row) (c : String) : Rat :=
  ((rows.filter (fun r => Row.category r == some c)).filterMap Row.revenue).sum

/-- The per-category revenue aggregation of an arbitrary row set (grouping
key `product_category_name`, measure `revenue`). -/
def categoryAggOn (rows : List Row) : List (String × Rat) :=
  (categoryKeysOf rows).map (fun c => (c, groupRevenue rows c))

/-- `category_summary` (lines 465-474): computed from `orders_full`, the
UNFILTERED master table. -/
def categorySummary (d : Dataset) : List (String × Rat) :=
  categoryAggOn (ordersFull d)

/-- The total of `category_summary.revenue` (line 548). -/
def categoryRevenueTotal (d : Dataset) : Rat :=
  ((categorySummary d).map Prod.snd).sum

/-- Modelled from the spec: "sum of `revenue` over all enriched rows in
the filtered window", nulls coerced to 0 once — the claims' comparator. -/
def specWindowRevenue (rows : List Row) : Rat :=
  (rows.map (fun r => (Row.revenue r).getD 0)).sum

/-- Modelled from the spec: per-customer `monetary = sum of revenue` over
that customer's enriched rows in the window — the claim's comparator. -/
def specMonetaryOf (rows : List Row) (u : String) : Rat :=
  ((rows.filter (fun r => Row.uid r == some u)).map
    (fun r => (Row.revenue r).getD 0)).sum

/-- Build an order record. -/
def mkOrder (oid cid : String) (day minute : Nat) : Order :=
  { order_id := oid, customer_id := cid, ts := { day := day, minute := minute } }

/-- C3 failing input: one customer with a single order holding two line
items of price 10 each, inside the window. -/
def dC3 : Dataset :=
  { customers := [{ customer_id := "c1", customer_unique_id := "U1", customer_state := "SP" }]
    orders := [mkOrder "o1" "c1" 0 0]
    order_items := [{ order_id := "o1", product_id := "p1", price := 10 },
                    { order_id := "o1", product_id := "p2", price := 10 }]
    products := [{ product_id := "p1", product_category_name := some "catA" },
                 { product_id := "p2", product_category_name := some "catA" }] }

/-- C4 counterexample input: an in-window item whose product has a null
category, and an out-of-window item with a category. -/
def dC4 : Dataset :=
  { customers := [{ customer_id := "c1", customer_unique_id := "U1", customer_state := "SP" }]
    orders := [mkOrder "o1" "c1" 0 0, mkOrder "o2" "c1" 10 0]
    order_items := [{ order_id := "o1", product_id := "p1", price := 10 },
                    { order_id := "o2", product_id := "p2", price := 5 }]
    products := [{ product_id := "p1", product_category_name := none },
                 { product_id := "p2", product_category_name := some "catA" }] }

/-- C5 counterexample input: the same category bought both inside and
outside the `[0,0]` window. -/
def dC5 : Dataset :=
  { customers := [{ customer_id := "c1", customer_unique_id := "U1", customer_state := "SP" }]
    orders := [mkOrder "o1" "c1" 0 0, mkOrder "o2" "c1" 10 0]
    order_items := [{ order_id := "o1", product_id := "p1", price := 10 },
                    { order_id := "o2", product_id := "p1", price := 5 }]
    products := [{ product_id := "p1", product_category_name := some "catA" }] }

/-- C6 failing input: all orders in January 2017 (model days 0-30); the
filter window is February 2017 (model days 31-58). -/
def dJan : Dataset :=
  { customers := [{ customer_id := "c1", customer_unique_id := "U1", customer_state := "SP" }]
    orders := [mkOrder "o1" "c1" 0 600, mkOrder "o2" "c1" 30 60]
    order_items := [{ order_id := "o1", product_id := "p1", price := 10 },
                    { order_id := "o2", product_id := "p1", price := 5 }]
    products := [{ product_id := "p1", product_category_name := some "catA" }] }

/-- C7 counterexample input: a single transaction on a Monday. -/
def dMon : Dataset :=
  { customers := [{ customer_id := "c1", customer_unique_id := "U1", customer_state := "SP" }]
    orders := [mkOrder "o1" "c1" 0 540]
    order_items := [{ order_id := "o1", product_id := "p1", price := 10 }]
    products := [{ product_id := "p1", product_category_name := some "catA" }] }

/-- C10 input: transactions on a Monday and a Tuesday only (both
weekdays). -/
def dWk : Dataset :=
  { customers := [{ customer_id := "c1", customer_unique_id := "U1", customer_state := "SP" },
                  { customer_id := "c2", customer_unique_id := "U2", customer_state := "RJ" }]
    orders := [mkOrder "o1" "c1" 0 540, mkOrder "o2" "c2" 1 600]
    order_items := [{ order_id := "o1", product_id := "p1", price := 10 },
                    { order_id := "o2", product_id := "p1", price := 5 }]
    products := [{ product_id := "p1", product_category_name := some "catA" }] }

/-- C9 counterexample input: a non-empty window with exactly one distinct
customer. -/
def dC9 : Dataset :=
  { customers := [{ customer_id := "c1", customer_unique_id := "U1", customer_state := "SP" }]
    orders := [mkOrder "o1" "c1" 0 0]
    order_items := [{ order_id := "o1", product_id := "p1", price := 10 }]
    products := [{ product_id := "p1", product_category_name := some "catA" }] }

/-- C2 counterexample metric column: six distinct values, so the ranks are
1..6. -/
def sixValues : List Rat := [1, 2, 3, 4, 5, 6]

/-- C1 counterexample: the spec's worked example `(R=3,F=3,M=1) → Champions`
does not hold of `rfm_segment`; with `M = 1` the Champions row fails and
the second row (`R≥3 and F≥2`) fires. -/
theorem segment_example_mismatch : rfm_segment 3 3 1 ≠ "Champions" := by
  decide

/-- C1 (amended): `rfm_segment` is a pure function of the score triple that
matches the §4.4 priority table evaluated in order with first match
winning; on the worked examples it yields Loyal Customers for (3,3,1)
(not Champions), Potential Loyalists for (3,1,1), Need Attention for
(2,4,4), and Lost Customers for (1,4,4). -/
theorem segment_matches_table :
    (∀ R F M : Nat, rfm_segment R F M = specSegmentOf R F M) ∧
    rfm_segment 3 3 1 = "Loyal Customers" ∧
    rfm_segment 3 1 1 = "Potential Loyalists" ∧
    rfm_segment 2 4 4 = "Need Attention" ∧
    rfm_segment 1 4 4 = "Lost Customers" :=
  ⟨fun _ _ _ => rfl, rfl, rfl, rfl, rfl⟩

/-- C8: a row passes `filtered_orders` iff it is an enriched row whose
purchase date lies inclusively between `start_date` and `end_date`; the
comparison reads only the date (any time-of-day gives the same verdict);
and when the window covers every enriched row the filter is the
identity. -/
theorem filter_window_spec (d : Dataset) (s e : Nat) (h : s ≤ e) :
    (∀ r : Row, r ∈ filteredOrders d s e ↔
      r ∈ ordersFull d ∧ s ≤ r.order.ts.day ∧ r.order.ts.day ≤ e) ∧
    (∀ (t : Timestamp) (m : Nat), inWindow s e { t with minute := m } = inWindow s e t) ∧
    ((∀ r ∈ ordersFull d, s ≤ r.order.ts.day ∧ r.order.ts.day ≤ e) →
      filteredOrders d s e = ordersFull d) := by
  refine ⟨?_, fun _ _ => rfl, ?_⟩
  · intro r
    simp [filteredOrders, List.mem_filter, inWindow]
  · intro hall
    apply List.filter_eq_self.mpr
    intro r hr
    simp [inWindow, (hall r hr).1, (hall r hr).2]

/-- C3 (code bug, evaluated at the failing input): for the single customer
of `dC3`, whose one order holds two line items of price 10 each, the
script's `monetary` is 40 — the line-100 re-merge joins the already
item-joined filtered table with `order_items` again, duplicating every
line item row once per item of its order — while the sum of revenue over
that customer's enriched (order, line item) rows in the window is 20. -/
theorem monetary_double_count :
    (rfmTable dC3 0 0).map (fun r => (r.uid, r.monetary)) = [("U1", (40 : Rat))] ∧
    specMonetaryOf (filteredOrders dC3 0 0) "U1" = 20 ∧
    (40 : Rat) ≠ 20 := by
  refine ⟨?_, ?_, by decide⟩
  · simp [rfmTable, orderItemsMerged, filteredOrders, ordersFull, withItems, ordersCustomers,
      leftJoin, inWindow, snapshotMin, totalMin, mergedRevenue, Row.revenue, Row.uid, dC3,
      mkOrder, List.filter_cons] <;> norm_num
  · simp [specMonetaryOf, filteredOrders, ordersFull, withItems, ordersCustomers,
      leftJoin, inWindow, Row.revenue, Row.uid, dC3, mkOrder, List.filter_cons] <;> norm_num

/-- C4 counterexample: on `dC4` with window `[0,0]` the category revenue
total is 5 — `category_summary` is computed from the unfiltered table and
its `groupby` drops the null-category row — while the revenue over the
enriched rows of the filtered window is 10. -/
theorem category_total_mismatch :
    categoryRevenueTotal dC4 = 5 ∧
    specWindowRevenue (filteredOrders dC4 0 0) = 10 ∧
    (5 : Rat) ≠ 10 := by
  refine ⟨?_, ?_, by decide⟩
  · simp [categoryRevenueTotal, categorySummary, categoryAggOn, categoryKeysOf, groupRevenue,
      Row.category, Row.revenue, ordersFull, withItems, ordersCustomers, leftJoin, dC4,
      mkOrder, List.filter_cons] <;> norm_num
  · simp [specWindowRevenue, filteredOrders, ordersFull, withItems, ordersCustomers,
      leftJoin, inWindow, Row.revenue, dC4, mkOrder, List.filter_cons] <;> norm_num

/-- C5 counterexample: on `dC5` the window `[0,0]` keeps only the price-10
row, yet `category_summary` reports 15 — it aggregates the full table,
not the rows kept by the filter. -/
theorem category_ignores_filter :
    categorySummary dC5 = [("catA", (15 : Rat))] ∧
    categoryAggOn (filteredOrders dC5 0 0) = [("catA", (10 : Rat))] ∧
    categorySummary dC5 ≠ categoryAggOn (filteredOrders dC5 0 0) := by
  have h1 : categorySummary dC5 = [("catA", (15 : Rat))] := by
    simp [categorySummary, categoryAggOn, categoryKeysOf, groupRevenue, Row.category,
      Row.revenue, ordersFull, withItems, ordersCustomers, leftJoin, dC5, mkOrder,
      List.filter_cons] <;> norm_num
  have h2 : categoryAggOn (filteredOrders dC5 0 0) = [("catA", (10 : Rat))] := by
    simp [categoryAggOn, categoryKeysOf, groupRevenue, Row.category, Row.revenue,
      filteredOrders, ordersFull, withItems, ordersCustomers, leftJoin, inWindow, dC5,
      mkOrder, List.filter_cons] <;> norm_num
  refine ⟨h1, h2, ?_⟩
  rw [h1, h2]
  decide

/-- C6 (code bug, evaluated at the failing input): with all orders in
January 2017 and a February 2017 window the filtered table is empty, and
the Key Insights blocks — which run outside the emptiness guards — fail:
tab 1 reads the never-assigned `rfm` (NameError) and tab 2 calls `idxmax`
on an all-null reindexed day-of-week summary (ValueError), instead of
producing empty summaries and no findings. -/
theorem empty_window_key_insights_raise :
    filteredOrders dJan 31 58 = [] ∧
    rfmDefined dJan 31 58 = none ∧
    tab1TotalCustomers (rfmDefined dJan 31 58) =
      .error "NameError: name rfm is not defined" ∧
    daily (filteredOrders dJan 31 58) = weekdayNames.map (fun w => (w, none)) ∧
    peakDay (filteredOrders dJan 31 58) =
      .error "ValueError: attempt to get argmax of an empty sequence" :=
  ⟨rfl, rfl, rfl, rfl, rfl⟩

/-- C7 counterexample: with a single Monday transaction, Tuesday appears
in `daily` with a null count — not with count 0 as the claim states. -/
theorem missing_day_null_not_zero :
    ("Tuesday", (none : Option Nat)) ∈ daily (filteredOrders dMon 0 6) ∧
    ("Tuesday", some 0) ∉ daily (filteredOrders dMon 0 6) ∧
    dayCount (filteredOrders dMon 0 6) "Tuesday" = 0 := by
  refine ⟨by decide, by decide, rfl⟩

/-- C9 counterexample: a non-empty window with exactly one distinct
customer is not handled by any fallback — `qcut` raises because all five
quantile edges of the single rank coincide. -/
theorem single_customer_qcut_raises :
    filteredOrders dC9 0 0 ≠ [] ∧
    (rfmTable dC9 0 0).length = 1 ∧
    rfmScored dC9 0 0 = .error "Bin edges must be unique" := by
  refine ⟨by decide, rfl, rfl⟩

/-- C10: there is a valid non-empty window all of whose transactions fall
on weekdays for which the weekend-count read of the temporal Key Insights
is an out-of-bounds index access (the "Weekend" group does not exist, so
`.values[0]` indexes an empty array) instead of the weekday-versus-weekend
comparison. -/
theorem weekend_index_out_of_bounds :
    ∃ (d : Dataset) (s e : Nat), s ≤ e ∧
      filteredOrders d s e ≠ [] ∧
      (∀ r ∈ filteredOrders d s e, dayTypeOf r = "Weekday") ∧
      weekendCount (filteredOrders d s e) =
        .error "IndexError: index 0 is out of bounds for axis 0 with size 0" :=
  ⟨dWk, 0, 6, by decide, by decide, by decide, rfl⟩

/-- C2 counterexample: for six customers with distinct metric values the
scores are `[1,1,2,3,4,4]`: bin 2 holds one customer although the claim's
"extra customers go to the earliest bins" rule demands two — the two
extras land in bins 1 and 4, as dictated by the quantile edges. -/
theorem quartile_extras_not_earliest :
    scoresOf sixValues = [1, 1, 2, 3, 4, 4] ∧
    (scoresOf sixValues).count 2 = 1 ∧
    claimedBinSize 6 2 = 2 ∧ (1 : Nat) ≠ 2 := by
  refine ⟨by decide, by decide, rfl, by decide⟩

/-- C8 witness: the filter contract instantiated at `dWk` with the window
`[0,6]`. -/
theorem filter_window_spec_witness :
    (0 : Nat) ≤ 6 ∧
    ((∀ r : Row, r ∈ filteredOrders dWk 0 6 ↔
        r ∈ ordersFull dWk ∧ 0 ≤ r.order.ts.day ∧ r.order.ts.day ≤ 6) ∧
      (∀ (t : Timestamp) (m : Nat), inWindow 0 6 { t with minute := m } = inWindow 0 6 t) ∧
      ((∀ r ∈ ordersFull dWk, 0 ≤ r.order.ts.day ∧ r.order.ts.day ≤ 6) →
        filteredOrders dWk 0 6 = ordersFull dWk)) :=
  ⟨by decide, filter_window_spec dWk 0 6 (by decide)⟩

/-- C5 (amended): `category_summary` is the category aggregation of the
FULL enriched table regardless of the chosen date range; it coincides
with the aggregation of the filtered rows exactly when the window keeps
every enriched row. -/
theorem category_full_window (d : Dataset) (s e : Nat)
    (h : ∀ r ∈ ordersFull d, s ≤ r.order.ts.day ∧ r.order.ts.day ≤ e) :
    categorySummary d = categoryAggOn (filteredOrders d s e) := by
  have hfix : filteredOrders d s e = ordersFull d := by
    apply List.filter_eq_self.mpr
    intro r hr
    simp [inWindow, (h r hr).1, (h r hr).2]
  rw [categorySummary, hfix]

/-- C5 witness: on `dC5` the window `[0,10]` spans all data, so the code's
category summary agrees with the filtered aggregation there. -/
theorem category_full_window_witness :
    (∀ r ∈ ordersFull dC5, 0 ≤ r.order.ts.day ∧ r.order.ts.day ≤ 10) ∧
    categorySummary dC5 = categoryAggOn (filteredOrders dC5 0 10) :=
  ⟨by decide, category_full_window dC5 0 10 (by decide)⟩

/-- C9 (amended): the `qcut` scoring step succeeds deterministically on
every metric column with at least two rows (the scaled rank-quantile
edges are then strictly increasing), but a window with exactly one
distinct customer is not handled by any fallback: all edges coincide and
`qcut` raises. -/
theorem qcut_degenerate {α : Type} [LinearOrder α] [Inhabited α] (xs : List α) :
    (2 ≤ xs.length → scoreList xs = .ok (scoresOf xs)) ∧
    (xs.length = 1 → scoreList xs = .error "Bin edges must be unique") := by
  constructor
  · intro h
    have hinc : strictlyInc (qcutEdges xs.length) = true := by
      simp [qcutEdges, strictlyInc]
      omega
    simp [scoreList, hinc]
  · intro h
    simp [scoreList, qcutEdges, h, strictlyInc]

/-- C9 witness: a two-row metric column is scored without fault. -/
theorem qcut_degenerate_witness :
    2 ≤ ([5, 7] : List Rat).length ∧
    scoreList ([5, 7] : List Rat) = .ok (scoresOf ([5, 7] : List Rat)) :=
  ⟨by decide, (qcut_degenerate ([5, 7] : List Rat)).1 (by decide)⟩

/-- C7 (amended): the day-of-week summary always lists exactly the seven
weekday names Monday..Sunday in calendar order; a weekday with zero
transactions appears with a null count (the reindex fills NaN, not 0),
and every non-null entry is the positive transaction count of its day. -/
theorem daily_fixed_names (rows : List Row) :
    ((daily rows).map Prod.fst = weekdayNames) ∧
    (∀ w, w ∈ weekdayNames →
      (((w, (none : Option Nat)) ∈ daily rows) ↔ dayCount rows w = 0)) ∧
    (∀ w c, (w, some c) ∈ daily rows → dayCount rows w = c ∧ 0 < c) := by
  refine ⟨?_, ?_, ?_⟩
  · simp [daily, Function.comp_def]
  · intro w hw
    simp only [daily, List.mem_map, Prod.mk.injEq]
    constructor
    · rintro ⟨a, _, rfl, hval⟩
      by_contra hne
      simp [hne] at hval
    · intro hc
      exact ⟨w, hw, rfl, by simp [hc]⟩
  · intro w c
    simp only [daily, List.mem_map, Prod.mk.injEq]
    rintro ⟨a, _, rfl, hval⟩
    by_cases hz : dayCount rows a = 0
    · simp [hz] at hval
    · simp [hz] at hval
      exact ⟨hval, by omega⟩

/-- C7 witness: the null-count characterisation instantiated at the
Monday-only window of `dMon` and the day Tuesday. -/
theorem daily_fixed_names_witness :
    "Tuesday" ∈ weekdayNames ∧
    ((("Tuesday", (none : Option Nat)) ∈ daily (filteredOrders dMon 0 6)) ↔
      dayCount (filteredOrders dMon 0 6) "Tuesday" = 0) :=
  ⟨by decide, (daily_fixed_names (filteredOrders dMon 0 6)).2.1 "Tuesday" (by decide)⟩

/-- Summing the non-null entries of an optional column equals summing the
column with nulls coerced to 0. -/
theorem sum_filterMap_getD {β : Type} (f : β → Option Rat) (l : List β) :
    (l.filterMap f).sum = (l.map (fun r => (f r).getD 0)).sum := by
  induction l with
  | nil => rfl
  | cons a t ih =>
    cases h : f a <;> simp [List.filterMap_cons, h, ih]

/-- A filtered sum as a sum of guarded terms over the whole list. -/
theorem filter_map_sum_ite {β : Type} (p : β → Bool) (f : β → Rat) (l : List β) :
    ((l.filter p).map f).sum = (l.map (fun r => if p r then f r else 0)).sum := by
  induction l with
  | nil => rfl
  | cons a t ih =>
    cases h : p a <;> simp [List.filter_cons, h, ih]

/-- Pointwise addition under a mapped sum. -/
theorem sum_map_add {β : Type} (f g : β → Rat) (l : List β) :
    (l.map (fun r => f r + g r)).sum = (l.map f).sum + (l.map g).sum := by
  induction l with
  | nil => simp
  | cons a t ih =>
    simp [ih]
    ring

/-- Exchanging the two summations of a rectangular sum. -/
theorem sum_map_swap (g : String → Row → Rat) (ks : List String) (rows : List Row) :
    (ks.map (fun c => (rows.map (g c)).sum)).sum
      = (rows.map (fun r => (ks.map (fun c => g c r)).sum)).sum := by
  induction ks with
  | nil =>
    symm
    apply List.sum_eq_zero
    intro x hx
    rcases List.mem_map.mp hx with ⟨r, _, rfl⟩
    rfl
  | cons c t ih =>
    simp only [List.map_cons, List.sum_cons, ih]
    exact (sum_map_add (fun r => g c r)
      (fun r => (t.map (fun c => g c r)).sum) rows).symm

/-- Summing a one-hot row over a duplicate-free key list. -/
theorem sum_ite_single (v : Rat) (c0 : String) (ks : List String) (hnd : ks.Nodup) :
    (ks.map (fun c => if c0 = c then v else 0)).sum = if c0 ∈ ks then v else 0 := by
  induction ks with
  | nil => simp
  | cons c t ih =>
    rcases List.nodup_cons.mp hnd with ⟨hcn, hnd'⟩
    by_cases hc : c0 = c
    · subst hc
      have ht : (t.map (fun c => if c0 = c then v else 0)).sum = 0 := by
        apply List.sum_eq_zero
        intro x hx
        rcases List.mem_map.mp hx with ⟨y, hy, rfl⟩
        have hne : ¬ c0 = y := fun h => hcn (by rw [h]; exact hy)
        simp [hne]
      simp [ht, List.mem_cons]
    · simp [hc, ih hnd', List.mem_cons]

/-- C4 (amended): the sum of `category_summary.revenue` over all category
groups equals the sum of revenue over the enriched rows of the FULL
dataset (the summary ignores the date filter) whose category is
non-null; rows with a null category are dropped by the grouping, not
mapped to a missing-category bucket. -/
theorem category_partition (d : Dataset) :
    categoryRevenueTotal d
      = (((ordersFull d).filter (fun r => (Row.category r).isSome)).map
          (fun r => (Row.revenue r).getD 0)).sum := by
  unfold categoryRevenueTotal categorySummary categoryAggOn groupRevenue
  rw [List.map_map]
  simp only [Function.comp_def]
  simp only [sum_filterMap_getD, filter_map_sum_ite]
  rw [sum_map_swap (fun c r => if Row.category r == some c then (Row.revenue r).getD 0 else 0)]
  apply congrArg List.sum
  apply List.map_congr_left
  intro r hr
  cases hcat : Row.category r with
  | none =>
    have hrhs : (if (none : Option String).isSome then (Row.revenue r).getD 0 else 0)
        = 0 := rfl
    rw [hrhs]
    apply List.sum_eq_zero
    intro x hx
    rcases List.mem_map.mp hx with ⟨c, _, rfl⟩
    rfl
  | some c0 =>
    have hmem : c0 ∈ categoryKeysOf (ordersFull d) := by
      unfold categoryKeysOf
      rw [List.mem_dedup]
      exact List.mem_filterMap.mpr ⟨r, hr, hcat⟩
    have hnd : (categoryKeysOf (ordersFull d)).Nodup := by
      unfold categoryKeysOf
      exact List.nodup_dedup _
    simp only [beq_iff_eq, Option.some.injEq]
    rw [sum_ite_single ((Row.revenue r).getD 0) c0 _ hnd]
    simp [hmem]

/-- The stable-rank order is irreflexive. -/
theorem keyLt_irrefl {α : Type} [LinearOrder α] [Inhabited α] (xs : List α) (i : Nat) :
    ¬ keyLt xs i i := by
  unfold keyLt
  simp

/-- The stable-rank order is transitive. -/
theorem keyLt_trans {α : Type} [LinearOrder α] [Inhabited α] (xs : List α) {i j k : Nat}
    (h1 : keyLt xs i j) (h2 : keyLt xs j k) : keyLt xs i k := by
  rcases h1 with h1 | ⟨e1, l1⟩ <;> rcases h2 with h2 | ⟨e2, l2⟩
  · exact Or.inl (h1.trans h2)
  · exact Or.inl (e2 ▸ h1)
  · exact Or.inl (lt_of_eq_of_lt e1 h2)
  · exact Or.inr ⟨e1.trans e2, l1.trans l2⟩

/-- Two distinct positions are always comparable in the stable-rank
order. -/
theorem keyLt_total {α : Type} [LinearOrder α] [Inhabited α] (xs : List α) {i j : Nat}
    (h : i ≠ j) : keyLt xs i j ∨ keyLt xs j i := by
  rcases lt_trichotomy (kval xs i) (kval xs j) with hv | hv | hv
  · exact Or.inl (Or.inl hv)
  · rcases Nat.lt_or_ge i j with hij | hij
    · exact Or.inl (Or.inr ⟨hv, hij⟩)
    · have hji : j < i := by omega
      exact Or.inr (Or.inr ⟨hv.symm, hji⟩)
  · exact Or.inr (Or.inl hv)

/-- `rank(method='first')` is strictly monotone along the stable order. -/
theorem rank_lt_rank {α : Type} [LinearOrder α] [Inhabited α] (xs : List α) {i j : Nat}
    (hi : i < xs.length) (h : keyLt xs i j) : rankAt xs i < rankAt xs j := by
  unfold rankAt
  have hsub : insert i ((Finset.range xs.length).filter (fun k => keyLt xs k i))
      ⊆ (Finset.range xs.length).filter (fun k => keyLt xs k j) := by
    intro k hk
    rcases Finset.mem_insert.mp hk with rfl | hk'
    · exact Finset.mem_filter.mpr ⟨Finset.mem_range.mpr hi, h⟩
    · rcases Finset.mem_filter.mp hk' with ⟨hkr, hki⟩
      exact Finset.mem_filter.mpr ⟨hkr, keyLt_trans xs hki h⟩
  have hni : i ∉ (Finset.range xs.length).filter (fun k => keyLt xs k i) := by
    intro hmem
    exact keyLt_irrefl xs i (Finset.mem_filter.mp hmem).2
  have hcard := Finset.card_le_card hsub
  rw [Finset.card_insert_of_not_mem hni] at hcard
  omega

/-- Ranks never exceed the number of rows. -/
theorem rank_le_length {α : Type} [LinearOrder α] [Inhabited α] (xs : List α) {i : Nat}
    (hi : i < xs.length) : rankAt xs i ≤ xs.length := by
  unfold rankAt
  have hsub : (Finset.range xs.length).filter (fun k => keyLt xs k i)
      ⊆ (Finset.range xs.length).erase i := by
    intro k hk
    rcases Finset.mem_filter.mp hk with ⟨hkr, hki⟩
    refine Finset.mem_erase.mpr ⟨?_, hkr⟩
    rintro rfl
    exact keyLt_irrefl xs k hki
  have hcard := Finset.card_le_card hsub
  rw [Finset.card_erase_of_mem (Finset.mem_range.mpr hi), Finset.card_range] at hcard
  omega

/-- `rank(method='first')` never assigns a rank twice. -/
theorem rank_injOn {α : Type} [LinearOrder α] [Inhabited α] (xs : List α) :
    Set.InjOn (fun i => rankAt xs i) ↑(Finset.range xs.length) := by
  intro i hi j hj hij
  by_contra hne
  have hi' : i < xs.length := Finset.mem_range.mp (Finset.mem_coe.mp hi)
  have hj' : j < xs.length := Finset.mem_range.mp (Finset.mem_coe.mp hj)
  rcases keyLt_total xs hne with h | h
  · have := rank_lt_rank xs hi' h
    simp only at hij
    omega
  · have := rank_lt_rank xs hj' h
    simp only at hij
    omega

/-- The ranks of an `N`-row column are exactly `1..N`. -/
theorem image_rank {α : Type} [LinearOrder α] [Inhabited α] (xs : List α) :
    (Finset.range xs.length).image (fun i => rankAt xs i) = Finset.Icc 1 xs.length := by
  apply Finset.eq_of_subset_of_card_le
  · intro r hr
    rcases Finset.mem_image.mp hr with ⟨i, hi, rfl⟩
    have hi' := Finset.mem_range.mp hi
    refine Finset.mem_Icc.mpr ⟨?_, rank_le_length xs hi'⟩
    unfold rankAt
    omega
  · rw [Finset.card_image_of_injOn (rank_injOn xs), Finset.card_range, Nat.card_Icc]
    omega

/-- Counting rows by a property of their rank equals counting the ranks
`1..N` directly. -/
theorem count_transfer {α : Type} [LinearOrder α] [Inhabited α] (xs : List α)
    (p : Nat → Prop) [DecidablePred p] :
    ((Finset.range xs.length).filter (fun i => p (rankAt xs i))).card
      = ((Finset.Icc 1 xs.length).filter p).card := by
  rw [← image_rank xs, Finset.filter_image]
  exact (Finset.card_image_of_injOn
    ((rank_injOn xs).mono (Finset.coe_subset.mpr (Finset.filter_subset _ _)))).symm

/-- Bridging list counting over `List.range` with finset cardinality. -/
theorem countP_range_card (n : Nat) (p : Nat → Bool) :
    (List.range n).countP p = ((Finset.range n).filter (fun i => p i = true)).card := by
  induction n with
  | zero => rfl
  | succ m ih =>
    rw [List.range_succ, List.countP_append, Finset.range_succ, Finset.filter_insert]
    by_cases h : p m = true
    · rw [if_pos h, Finset.card_insert_of_not_mem (by simp)]
      simp [List.countP_cons, h, ih]
    · rw [if_neg h]
      simp [List.countP_cons, h, ih]

/-- The number of rows scored `k` equals the number of ranks binned to
`k`. -/
theorem count_scoresOf {α : Type} [LinearOrder α] [Inhabited α] (xs : List α) (k : Nat) :
    (scoresOf xs).count k
      = ((Finset.Icc 1 xs.length).filter (fun r => binOf xs.length r = k)).card := by
  unfold scoresOf
  rw [List.count_eq_countP, List.countP_map, countP_range_card]
  rw [← count_transfer xs (fun r => binOf xs.length r = k)]
  apply congrArg Finset.card
  apply Finset.filter_congr
  intro i _
  simp [Function.comp]

/-- Each of the four rank bins holds either `floor(N/4)` or `ceil(N/4)`
of the ranks `1..N`. -/
theorem binCount_floor_ceil (N : Nat) (hN : 4 ≤ N) (k : Nat) (hk1 : 1 ≤ k) (hk4 : k ≤ 4) :
    ((Finset.Icc 1 N).filter (fun r => binOf N r = k)).card = N / 4 ∨
    ((Finset.Icc 1 N).filter (fun r => binOf N r = k)).card = (N + 3) / 4 := by
  interval_cases k
  · have hfe : (Finset.Icc 1 N).filter (fun r => binOf N r = 1)
        = Finset.Icc 1 ((N - 1) / 4 + 1) := by
      ext r
      simp only [Finset.mem_filter, Finset.mem_Icc, binOf]
      split_ifs with h1 h2 h3 <;> omega
    rw [hfe, Nat.card_Icc]
    omega
  · have hfe : (Finset.Icc 1 N).filter (fun r => binOf N r = 2)
        = Finset.Icc ((N - 1) / 4 + 2) ((2 * (N - 1)) / 4 + 1) := by
      ext r
      simp only [Finset.mem_filter, Finset.mem_Icc, binOf]
      split_ifs with h1 h2 h3 <;> omega
    rw [hfe, Nat.card_Icc]
    omega
  · have hfe : (Finset.Icc 1 N).filter (fun r => binOf N r = 3)
        = Finset.Icc ((2 * (N - 1)) / 4 + 2) ((3 * (N - 1)) / 4 + 1) := by
      ext r
      simp only [Finset.mem_filter, Finset.mem_Icc, binOf]
      split_ifs with h1 h2 h3 <;> omega
    rw [hfe, Nat.card_Icc]
    obtain ⟨q, s, hqs, hs4⟩ : ∃ q s, N = 4 * q + s ∧ s < 4 :=
      ⟨N / 4, N % 4, by omega, by omega⟩
    subst hqs
    interval_cases s <;> omega
  · have hfe : (Finset.Icc 1 N).filter (fun r => binOf N r = 4)
        = Finset.Icc ((3 * (N - 1)) / 4 + 2) N := by
      ext r
      simp only [Finset.mem_filter, Finset.mem_Icc, binOf]
      split_ifs with h1 h2 h3 <;> omega
    rw [hfe, Nat.card_Icc]
    obtain ⟨q, s, hqs, hs4⟩ : ∃ q s, N = 4 * q + s ∧ s < 4 :=
      ⟨N / 4, N % 4, by omega, by omega⟩
    subst hqs
    interval_cases s <;> omega

/-- C2 (amended): for every metric column with `N ≥ 4` rows, the
quartile-by-rank binning (ranks by first-occurrence tie-break, then
`qcut` into 4 bins) assigns scores in `{1,2,3,4}` and every score class
holds either `floor(N/4)` or `ceil(N/4)` customers; when `4 ∤ N` the
extra customers land in the bins singled out by the linear-interpolation
quantile edges of the ranks, which need not be the earliest bins (for
`N = 6` the sizes are 2,1,1,2). -/
theorem quartile_bin_sizes {α : Type} [LinearOrder α] [Inhabited α] (xs : List α)
    (h4 : 4 ≤ xs.length) :
    (∀ s ∈ scoresOf xs, 1 ≤ s ∧ s ≤ 4) ∧
    (∀ k, 1 ≤ k → k ≤ 4 →
      (scoresOf xs).count k = xs.length / 4 ∨
      (scoresOf xs).count k = (xs.length + 3) / 4) := by
  constructor
  · intro s hs
    unfold scoresOf at hs
    rcases List.mem_map.mp hs with ⟨i, _, rfl⟩
    unfold binOf
    split_ifs <;> omega
  · intro k hk1 hk4
    rw [count_scoresOf]
    exact binCount_floor_ceil xs.length h4 k hk1 hk4

/-- C2 witness: the bin-size bound instantiated at a five-value metric
column and score class 2. -/
theorem quartile_bin_sizes_witness :
    4 ≤ ([3, 1, 2, 5, 4] : List Rat).length ∧
    ((scoresOf ([3, 1, 2, 5, 4] : List Rat)).count 2
        = ([3, 1, 2, 5, 4] : List Rat).length / 4 ∨
      (scoresOf ([3, 1, 2, 5, 4] : List Rat)).count 2
        = (([3, 1, 2, 5, 4] : List Rat).length + 3) / 4) :=
  ⟨by decide, (quartile_bin_sizes ([3, 1, 2, 5, 4] : List Rat) (by decide)).2 2
    (by decide) (by decide)⟩
